import Mathlib

/-!
Verification of the Evidence Aggregation & Budgeted Summarization Pipeline
(`toe_evidence_analysis_enhanced.py`).

Python strings are modelled as `List Char` (named `Text` below), so that
Python slicing, concatenation and length translate to `List.take`,
`List.drop`, `++` and `List.length`.  Filesystem and network effects are
modelled as oracle inputs: the decoded text of each evidence file, the
result of each remote fetch and the outcome of each generation-service
attempt are parameters of the corresponding definitions, exactly where the
Python code performs the I/O.  The retry delays (`RETRY_DELAY = 1.0`,
`MAX_RETRY_DELAY = 60.0`) are binary-exact floating point values, and the
computations performed on them (`* 2 ** attempt`, `min`) are exact, so they
are modelled as natural numbers.
-/

set_option maxRecDepth 16000

abbrev Text := List Char

/-- `MAX_FILE_CHARS = 15000`, the per-file character cap. -/
def MAX_FILE_CHARS : Nat := 15000

/-- `MAX_TOTAL_CHARS = 160000`, the global character cap per control. -/
def MAX_TOTAL_CHARS : Nat := 160000

/-- `Config.MAX_RETRIES = 5`. -/
def MAX_RETRIES : Nat := 5

/-- `Config.RETRY_DELAY = 1.0` (exact, modelled as a natural number). -/
def RETRY_DELAY : Nat := 1

/-- `Config.MAX_RETRY_DELAY = 60.0` (exact, modelled as a natural number). -/
def MAX_RETRY_DELAY : Nat := 60

/-- Python substring test `needle in hay`. -/
def hasSubstr (hay needle : Text) : Bool :=
  if needle.isPrefixOf hay then true
  else
    match hay with
    | [] => false
    | _ :: rest => hasSubstr rest needle

/-- Python `s[-k:]` (note `s[-0:]` is the whole string, not the empty one). -/
def pyTail (s : Text) (k : Nat) : Text :=
  if k = 0 then s else s.drop (s.length - k)

/-- The elision marker `f"\n\n[TRUNCATED: {removed} chars removed from middle]\n\n"`
inserted by `smart_truncate_content`. -/
def truncMarkerText (removed : Nat) : Text :=
  "\n\n[TRUNCATED: ".toList ++ (Nat.repr removed).toList
    ++ " chars removed from middle]\n\n".toList

/-- The note `f"\n[TRUNCATED: content exceeds {max_chars} chars]"` appended in the
degenerate branch of `smart_truncate_content`. -/
def truncExceedsText (maxChars : Nat) : Text :=
  "\n[TRUNCATED: content exceeds ".toList ++ (Nat.repr maxChars).toList
    ++ " chars]".toList

/-- `smart_truncate_content(content, max_chars)` from the source: keep the text when
it fits, otherwise keep `max_chars // 2` head characters and `max_chars // 4` tail
characters around an elision marker and re-clip the result to `max_chars`. -/
def smart_truncate_content (content : Text) (maxChars : Nat) : Text :=
  if content.length ≤ maxChars then content
  else
    let keepStart := maxChars / 2
    let keepEnd := maxChars / 4
    if keepStart + keepEnd < maxChars then
      (content.take keepStart ++ truncMarkerText (content.length - maxChars)
        ++ pyTail content keepEnd).take maxChars
    else
      content.take maxChars ++ truncExceedsText maxChars

/-- The per-file budgeting step of `read_evidence_folder` (lines 793-795):
`if len(file_content) > MAX_FILE_CHARS: file_content = smart_truncate_content(...);
truncated = True`.  Returns the budgeted text and whether the flag was set. -/
def budgetStep (t : Text) : Text × Bool :=
  if MAX_FILE_CHARS < t.length then (smart_truncate_content t MAX_FILE_CHARS, true)
  else (t, false)

/-- One local evidence file: its name, its byte size on disk, and the decoded text
the extension-dispatched reader produced for it (the value of `file_content` after
the `try`/`except` of lines 764-790). -/
structure EvFile where
  name : Text
  size : Nat
  content : Text
  deriving Repr, DecidableEq

/-- The header line `f"=== LOCAL FILE {file_count}: {fname} ({file_size} bytes) ==="`. -/
def fileHeader (n : Nat) (f : EvFile) : Text :=
  "=== LOCAL FILE ".toList ++ (Nat.repr n).toList ++ ": ".toList ++ f.name
    ++ " (".toList ++ (Nat.repr f.size).toList ++ " bytes) ===".toList

/-- `f"[STOPPED: Total evidence limit of {MAX_TOTAL_CHARS} chars reached]"`. -/
def stoppedText : Text :=
  "[STOPPED: Total evidence limit of ".toList ++ (Nat.repr MAX_TOTAL_CHARS).toList
    ++ " chars reached]".toList

/-- The mutable loop state of `read_evidence_folder`: the `contents` list, the
`file_count`, `total_chars` and `truncated` variables. -/
structure LoopSt where
  contents : List Text
  fileCount : Nat
  totalChars : Nat
  truncated : Bool
  deriving Repr, DecidableEq

/-- Python's stable ascending sort by size, `files.sort(key=lambda x: x[2])`. -/
def sortBySize (files : List EvFile) : List EvFile :=
  List.insertionSort (fun a b => a.size ≤ b.size) files

/-- The state update of one successful loop iteration of `read_evidence_folder`
(lines 760-809, fit case): append the header line, the budgeted content and the
empty separator, count the file, add its length to the running total, and fold in
the per-file truncation flag. -/
def fitState (s : LoopSt) (f : EvFile) : LoopSt :=
  { contents := s.contents ++ [fileHeader (s.fileCount + 1) f,
      (budgetStep f.content).1, []],
    fileCount := s.fileCount + 1,
    totalChars := s.totalChars + (budgetStep f.content).1.length,
    truncated := s.truncated || (budgetStep f.content).2 }

/-- The local-file loop of `read_evidence_folder` (lines 756-809): for each file in
size order, break when the running total has reached the global cap, otherwise
append the header, budget the decoded content per file, and either append it and
continue, or truncate it to the remaining space (when more than the 100-character
usefulness threshold remains) and stop, or drop it and stop. -/
def processFiles : List EvFile → LoopSt → LoopSt
  | [], s => s
  | f :: rest, s =>
    if MAX_TOTAL_CHARS ≤ s.totalChars then s
    else if MAX_TOTAL_CHARS - s.totalChars < (budgetStep f.content).1.length then
      if 100 < MAX_TOTAL_CHARS - s.totalChars then
        { contents := s.contents ++ [fileHeader (s.fileCount + 1) f,
            smart_truncate_content (budgetStep f.content).1
              (MAX_TOTAL_CHARS - s.totalChars - 50),
            stoppedText],
          fileCount := s.fileCount + 1, totalChars := s.totalChars, truncated := true }
      else
        { contents := s.contents ++ [fileHeader (s.fileCount + 1) f],
          fileCount := s.fileCount + 1, totalChars := s.totalChars, truncated := true }
    else
      processFiles rest (fitState s f)

/-- Outcome of the folder-resolution block of `read_evidence_folder`
(lines 711-720).  `exactMatch`: the exact folder exists, so the outer `else`
sets `folder_missing = False`.  `noMatch`: the fuzzy loop finishes without a
hit, so its `else` sets `folder_missing = True`.  `fuzzyMatch`: a fuzzy
candidate is found and the `break` at line 715 skips both assignments, leaving
`folder_missing` unbound — line 746 then raises `UnboundLocalError`. -/
inductive FolderResolution where
  | exactMatch
  | fuzzyMatch
  | noMatch
  deriving Repr, DecidableEq

/-- The oracle input of one `read_evidence_folder` call: the control name, the
resolved folder path, how folder resolution went (exact hit, fuzzy hit, or no
match), the two remote-collaborator flags with the texts their fetches would
return, and the folder's files with their decoded contents. -/
structure FolderInput where
  controlName : Text
  folderPath : Text
  resolution : FolderResolution
  sapEnabled : Bool
  sapEvidence : Text
  jiraEnabled : Bool
  jiraEvidence : Text
  files : List EvFile
  deriving Repr

/-- The state after the two remote-collaborator steps of `read_evidence_folder`
(lines 727-743): each enabled collaborator whose fetch returned non-empty text is
appended as one source, counted in `file_count` and `total_chars`. -/
def remoteState (inp : FolderInput) : LoopSt :=
  let s0 : LoopSt := { contents := [], fileCount := 0, totalChars := 0, truncated := false }
  let s1 :=
    if inp.sapEnabled && !inp.sapEvidence.isEmpty then
      { contents := s0.contents ++ [inp.sapEvidence], fileCount := s0.fileCount + 1,
        totalChars := s0.totalChars + inp.sapEvidence.length, truncated := s0.truncated }
    else s0
  if inp.jiraEnabled && !inp.jiraEvidence.isEmpty then
    { contents := s1.contents ++ [inp.jiraEvidence], fileCount := s1.fileCount + 1,
      totalChars := s1.totalChars + inp.jiraEvidence.length, truncated := s1.truncated }
  else s1

/-- The collection state of `read_evidence_folder` just before assembly, on the
two non-raising resolution paths: remote sources, then the size-sorted local
files when the folder was resolved by exact match (`folder_missing = False`);
when no folder matched (`folder_missing = True`) the local block is skipped.  On
the fuzzy path `read_evidence_folder` raises at line 746 before any local file
is processed, so no collection state is produced there. -/
def collectState (inp : FolderInput) : LoopSt :=
  if inp.resolution = .exactMatch then processFiles (sortBySize inp.files) (remoteState inp)
  else remoteState inp

/-- `"Enabled" if flag else "Disabled"`. -/
def enabledWord (b : Bool) : Text :=
  if b then "Enabled".toList else "Disabled".toList

/-- The sentinel `f"No evidence found for control: {control_name} (Local folder:
{folder}, SAP GRC: ..., Jira: ...)"` returned when `file_count == 0` (line 812). -/
def sentinelText (inp : FolderInput) : Text :=
  "No evidence found for control: ".toList ++ inp.controlName
    ++ " (Local folder: ".toList ++ inp.folderPath
    ++ ", SAP GRC: ".toList ++ enabledWord inp.sapEnabled
    ++ ", Jira: ".toList ++ enabledWord inp.jiraEnabled ++ ")".toList

/-- `'\n'.join(contents)`. -/
def joinNl : List Text → Text
  | [] => []
  | [t] => t
  | t :: u :: rest => t ++ Char.ofNat 10 :: joinNl (u :: rest)

/-- The constant head of the truncation warning banner. -/
def warnHead : Text := "[WARNING: Evidence content was truncated. Processed ".toList

/-- `f"[WARNING: Evidence content was truncated. Processed {file_count} sources,
total {len(result)} chars]"`. -/
def warningText (fc n : Nat) : Text :=
  warnHead ++ (Nat.repr fc).toList ++ " sources, total ".toList
    ++ (Nat.repr n).toList ++ " chars]".toList

/-- The assembly tail of `read_evidence_folder` (lines 811-828): the no-evidence
sentinel check, the newline join, the final global-cap safety check, and the
warning banner when anything was truncated. -/
def assembleResult (st : LoopSt) (inp : FolderInput) : Text :=
  if st.fileCount = 0 then sentinelText inp
  else if MAX_TOTAL_CHARS < (joinNl st.contents).length then
    warningText st.fileCount
        (smart_truncate_content (joinNl st.contents) MAX_TOTAL_CHARS).length
      ++ "\n\n".toList ++ smart_truncate_content (joinNl st.contents) MAX_TOTAL_CHARS
  else if st.truncated then
    warningText st.fileCount (joinNl st.contents).length ++ "\n\n".toList
      ++ joinNl st.contents
  else joinNl st.contents

/-- The message of the exception raised at line 746 when a fuzzy folder match
left `folder_missing` unbound. -/
def unboundFolderMissingText : Text :=
  ("UnboundLocalError: cannot access local variable folder_missing "
    ++ "where it is not associated with a value").toList

/-- `read_evidence_folder` (lines 705-828): remote sources, then the local-file
loop, then the assembly tail — except that on a fuzzy folder match the function
raises `UnboundLocalError` at line 746 (the `break` at line 715 skipped both
assignments of `folder_missing`), which no handler inside the function catches. -/
def read_evidence_folder (inp : FolderInput) : Except Text Text :=
  match inp.resolution with
  | .fuzzyMatch => .error unboundFolderMissingText
  | _ => .ok (assembleResult (collectState inp) inp)

/-- The fixed sufficiency text synthesized by the module-level loop when its
no-evidence check fires (line 1017). -/
def noEvidenceSufficiencyText : Text :=
  ("CONCLUSION: NO\n\nDETAILED REASONING: No evidence was provided for review. "
    ++ "Cannot assess control effectiveness without supporting documentation.").toList

/-- The substring the module-level loop tests for (line 1014):
`if "No evidence folder found" in evidence_content`. -/
def noEvidenceCheckText : Text := "No evidence folder found".toList

/-- The per-control body of the module-level orchestrator loop (lines 1012-1033):
given the collected evidence corpus and the texts the two generation calls would
return, produce the summary cell, the sufficiency cell, and the number of
generation-service calls made for this control. -/
def moduleLoopBody (evidence summaryResult sufficiencyResult : Text) :
    Text × Text × Nat :=
  if hasSubstr evidence noEvidenceCheckText then
    ("No evidence folder found for this control".toList, noEvidenceSufficiencyText, 0)
  else
    (summaryResult, sufficiencyResult, 2)

/-- One full iteration of the module-level control-processing loop
(lines 1003-1034): `read_evidence_folder` is called with no surrounding
`try`/`except`, so an exception it raises propagates out of the loop and aborts
the whole run (`.error`); otherwise the iteration appends the summary and
sufficiency cells for the row (`.ok`). -/
def moduleLoopRow (inp : FolderInput) (summaryResult sufficiencyResult : Text) :
    Except Text (Text × Text) :=
  match read_evidence_folder inp with
  | .error e => .error e
  | .ok evidence =>
    .ok ((moduleLoopBody evidence summaryResult sufficiencyResult).1,
      (moduleLoopBody evidence summaryResult sufficiencyResult).2.1)

/-! ### Decoders -/

/-- The recognized file extensions of the dispatch at lines 765-788. -/
def knownExts : List Text :=
  [".txt", ".docx", ".pdf", ".csv", ".xlsx", ".xls", ".msg", ".eml", ".mbox",
   ".png", ".jpg", ".jpeg", ".tiff", ".bmp", ".gif"].map String.toList

/-- Whether an extension is dispatched to a reader. -/
def isKnownExt (ext : Text) : Bool := knownExts.contains ext

/-- Outcome of a reader call: the text it returned, or the exception it raised. -/
inductive ReadOutcome where
  | ok (t : Text)
  | raised (e : Text)
  deriving Repr, DecidableEq

/-- `f"[Unsupported file type: {ext}]"`. -/
def unsupportedText (ext : Text) : Text :=
  "[Unsupported file type: ".toList ++ ext ++ "]".toList

/-- The decoder boundary of `read_evidence_folder` (lines 763-790): dispatch by
extension inside `try`, turning any raised exception into
`f"[Error reading {fname}: {e}]"`; unknown extensions yield the unsupported-type
diagnostic without calling a reader. -/
def dispatchRead (fname ext : Text) (reader : ReadOutcome) : Text :=
  if isKnownExt ext then
    match reader with
    | .ok t => t
    | .raised e => "[Error reading ".toList ++ fname ++ ": ".toList ++ e ++ "]".toList
  else unsupportedText ext

/-- `read_docx_file` (lines 426-434): missing library note, the joined paragraph
texts, or the internal catch converting an exception into
`f"[Error reading DOCX: {e}]"`. -/
def read_docx_file (documentAvailable : Bool) (doc : Except Text (List Text)) : Text :=
  if documentAvailable = false then "[DOCX file - python-docx not installed]".toList
  else
    match doc with
    | .ok paras => joinNl paras
    | .error e => "[Error reading DOCX: ".toList ++ e ++ "]".toList

/-! ### Generation client -/

/-- Error classification of `make_llm_request_with_retry` (substring matching on
the lowercased exception text, in the order of the `elif` chain). -/
inductive ErrKind where
  | rateLimit
  | auth
  | badRequest
  | other
  deriving Repr, DecidableEq

/-- Lowercase an exception message, `str(e).lower()`. -/
def lowerText (t : Text) : Text := t.map Char.toLower

/-- The `elif` chain of lines 864-873 on the lowercased message. -/
def classifyError (e : Text) : ErrKind :=
  let m := lowerText e
  if hasSubstr m "429".toList || hasSubstr m "too many requests".toList
      || hasSubstr m "rate limit".toList then .rateLimit
  else if hasSubstr m "401".toList || hasSubstr m "unauthorized".toList then .auth
  else if hasSubstr m "400".toList || hasSubstr m "bad request".toList then .badRequest
  else .other

/-- Outcome of one generation attempt: the completion content (`None` when the API
returned no content) or the raised exception's message. -/
inductive AttemptResult where
  | success (content : Option Text)
  | raised (e : Text)
  deriving Repr

/-- Python whitespace for `str.strip()`. -/
def isPyWS (c : Char) : Bool :=
  c = ' ' || c = Char.ofNat 9 || c = Char.ofNat 10 || c = Char.ofNat 13
    || c = Char.ofNat 11 || c = Char.ofNat 12

/-- `content.strip()`. -/
def pyStrip (t : Text) : Text :=
  ((t.dropWhile isPyWS).reverse.dropWhile isPyWS).reverse

/-- `content.strip() if content else "No response generated"` (both `None` and the
empty string are falsy). -/
def successText : Option Text → Text
  | none => "No response generated".toList
  | some t => if t = [] then "No response generated".toList else pyStrip t

/-- `f"LLM error after {Config.MAX_RETRIES} attempts"`. -/
def llmFailText : Text :=
  "LLM error after ".toList ++ (Nat.repr MAX_RETRIES).toList ++ " attempts".toList

/-- The rate-limit backoff `min(Config.RETRY_DELAY * (2 ** attempt),
Config.MAX_RETRY_DELAY)` (line 865). -/
def rateWait (attempt : Nat) : Nat :=
  min (RETRY_DELAY * 2 ^ attempt) MAX_RETRY_DELAY

/-- The uncapped generic backoff `Config.RETRY_DELAY * (2 ** attempt)` (line 875). -/
def otherWait (attempt : Nat) : Nat := RETRY_DELAY * 2 ^ attempt

/-- The observable result of `make_llm_request_with_retry`: the returned text, the
number of attempts made, and the sequence of `time.sleep` waits performed. -/
structure RetryResult where
  text : Text
  attempts : Nat
  waits : List Nat
  deriving Repr, DecidableEq

/-- The retry loop of `make_llm_request_with_retry` (lines 836-881).  `fuel` is
`MAX_RETRIES - attempt`, the number of loop iterations left; the oracle gives the
outcome of each attempt.  Rate-limit errors back off (capped) and retry — the
sleep happens even on the final attempt; auth and bad-request errors return
immediately; other errors back off (uncapped) and retry except on the final
attempt; exhausting the loop returns the descriptive error string. -/
def retryGo (oracle : Nat → AttemptResult) : Nat → Nat → List Nat → RetryResult
  | 0, _, waits => { text := llmFailText, attempts := MAX_RETRIES, waits := waits }
  | fuel + 1, attempt, waits =>
    match oracle attempt with
    | .success c => { text := successText c, attempts := attempt + 1, waits := waits }
    | .raised e =>
      match classifyError e with
      | .rateLimit => retryGo oracle fuel (attempt + 1) (waits ++ [rateWait attempt])
      | .auth =>
        { text := "Authentication error: ".toList ++ e, attempts := attempt + 1,
          waits := waits }
      | .badRequest =>
        { text := "Request too large: ".toList ++ e, attempts := attempt + 1,
          waits := waits }
      | .other =>
        if attempt + 1 < MAX_RETRIES then
          retryGo oracle fuel (attempt + 1) (waits ++ [otherWait attempt])
        else retryGo oracle fuel (attempt + 1) waits

/-- `make_llm_request_with_retry` with the attempt outcomes given by an oracle. -/
def make_llm_request_with_retry (oracle : Nat → AttemptResult) : RetryResult :=
  retryGo oracle MAX_RETRIES 0 []

/-! ### Orchestrator (`process_controls`) -/

/-- `f"Error during analysis: {e}"`. -/
def errAnalysisText (e : Text) : Text := "Error during analysis: ".toList ++ e

/-- The per-row loop of `process_controls` (lines 1167-1189): `outcome i` is the
result of the `try` block for row `i` — either the (summary, sufficiency) pair or
the message of the exception raised anywhere in collection or generation. -/
def processControlsGo (outcome : Nat → Except Text (Text × Text)) :
    Nat → List (Text × Text) → List (Text × Text)
  | _, [] => []
  | i, _ :: rest =>
    (match outcome i with
     | .ok p => p
     | .error e => (errAnalysisText e, errAnalysisText e)) ::
      processControlsGo outcome (i + 1) rest

/-- `process_controls` (lines 1159-1197): produce one (summary, sufficiency) pair
per input row, in row order. -/
def process_controls (outcome : Nat → Except Text (Text × Text))
    (rows : List (Text × Text)) : List (Text × Text) :=
  processControlsGo outcome 0 rows

/-! ### Concrete inputs used by counterexamples and witnesses -/

instance : DecidableRel (fun a b : EvFile => a.size ≤ b.size) :=
  fun a b => Nat.decLe a.size b.size

instance : IsTotal EvFile (fun a b => a.size ≤ b.size) :=
  ⟨fun a b => Nat.le_total a.size b.size⟩

instance : IsTrans EvFile (fun a b => a.size ≤ b.size) :=
  ⟨fun _ _ _ h1 h2 => Nat.le_trans h1 h2⟩

/-- The initial loop state (all counters zero, no sources). -/
def zeroSt : LoopSt :=
  { contents := [], fileCount := 0, totalChars := 0, truncated := false }

/-- A control with no resolvable evidence sources: no matching folder, both
remote collaborators disabled. -/
def c1Input : FolderInput :=
  { controlName := "C002".toList, folderPath := "Evidence/C002".toList,
    resolution := .noMatch, sapEnabled := false, sapEvidence := [],
    jiraEnabled := false, jiraEvidence := [], files := [] }

/-- A control whose only source is an enabled SAP GRC fetch returning 15001
characters, one more than the per-file cap. -/
def c4Input : FolderInput :=
  { controlName := "C7".toList, folderPath := "Evidence/C7".toList,
    resolution := .noMatch, sapEnabled := true,
    sapEvidence := List.replicate 15001 'g', jiraEnabled := false, jiraEvidence := [],
    files := [] }

/-- A local evidence file whose decoded text is 80001 characters long. -/
def c2BigFile : EvFile :=
  { name := "big.txt".toList, size := 80001, content := List.replicate 80001 'x' }

/-- A local evidence file whose decoded text is exactly 15000 characters long. -/
def c2CapFile : EvFile :=
  { name := "f.txt".toList, size := 15000, content := List.replicate 15000 'a' }

/-- Eleven files of 15000 decoded characters each: combined budgeted size 165000,
which exceeds the global cap. -/
def c2WitnessInput : FolderInput :=
  { controlName := "C9".toList, folderPath := "Evidence/C9".toList,
    resolution := .exactMatch, sapEnabled := false, sapEvidence := [],
    jiraEnabled := false, jiraEvidence := [],
    files := List.replicate 11 c2CapFile }

/-- A control whose folder is found by the fuzzy substring match (for example a
folder named Evidence/C004_archive for control C004), so that the break at line
715 leaves folder_missing unbound and line 746 raises. -/
def c5FuzzyInput : FolderInput :=
  { controlName := "C004".toList, folderPath := "Evidence/C004_archive".toList,
    resolution := .fuzzyMatch, sapEnabled := false, sapEvidence := [],
    jiraEnabled := false, jiraEvidence := [],
    files := [{ name := "a.txt".toList, size := 5, content := "hello".toList }] }

/-- A 200-character evidence file used to exercise the drop-at-threshold branch. -/
def c10File : EvFile :=
  { name := "a.txt".toList, size := 200, content := List.replicate 200 'a' }

/-- A loop state with 159950 of the 160000-character budget already consumed. -/
def c10State : LoopSt :=
  { contents := [], fileCount := 3, totalChars := 159950, truncated := false }

/-- Combined length of the budgeted (per-file-capped) decoded texts of a list of
local evidence files. -/
def budgetSum (files : List EvFile) : Nat :=
  (files.map fun f => (budgetStep f.content).1.length).sum

/-- Combined length of the elements of a `contents` list. -/
def contentsLen (l : List Text) : Nat := (l.map List.length).sum

/-! ### Helper lemmas -/

theorem smart_truncate_of_le (t : Text) (c : Nat) (h : t.length ≤ c) :
    smart_truncate_content t c = t := by
  unfold smart_truncate_content
  rw [if_pos h]

theorem smart_truncate_length_le_cap (t : Text) (c : Nat) (hc : 1 ≤ c)
    (h : c < t.length) : (smart_truncate_content t c).length ≤ c := by
  unfold smart_truncate_content
  rw [if_neg (by omega), if_pos (by omega)]
  simp only [List.length_take]
  omega

theorem budgetStep_length_le_cap (t : Text) :
    (budgetStep t).1.length ≤ MAX_FILE_CHARS := by
  unfold budgetStep
  split
  · next h => exact smart_truncate_length_le_cap t MAX_FILE_CHARS (by norm_num [MAX_FILE_CHARS]) h
  · next h => simpa using Nat.le_of_not_lt h

theorem truncMarkerText_length_ge (n : Nat) : 43 ≤ (truncMarkerText n).length := by
  unfold truncMarkerText
  simp only [List.length_append]
  have h14 : ("\n\n[TRUNCATED: ".toList).length = 14 := rfl
  have h29 : (" chars removed from middle]\n\n".toList).length = 29 := rfl
  omega

theorem fileHeader_length_pos (n : Nat) (f : EvFile) : 1 ≤ (fileHeader n f).length := by
  unfold fileHeader
  simp only [List.length_append]
  have h15 : ("=== LOCAL FILE ".toList).length = 15 := rfl
  omega

theorem joinNl_length_ge (l : List Text) : contentsLen l ≤ (joinNl l).length := by
  induction l with
  | nil => simp [joinNl, contentsLen]
  | cons t rest ih =>
    cases rest with
    | nil => simp [joinNl, contentsLen]
    | cons u r2 =>
      simp only [joinNl, contentsLen, List.map_cons, List.sum_cons,
        List.length_append, List.length_cons] at ih ⊢
      omega

/-! ### Claim C9 -/

/-- Claim C9: for every text input whose length is less than the per-file cap,
`smart_truncate_content` returns the input unchanged and the per-file budgeting
step of `read_evidence_folder` leaves the truncated flag unset. -/
theorem claim_c9 (t : Text) (h : t.length < MAX_FILE_CHARS) :
    budgetStep t = (t, false) ∧ smart_truncate_content t MAX_FILE_CHARS = t := by
  constructor
  · unfold budgetStep
    rw [if_neg (by omega)]
  · exact smart_truncate_of_le t _ (by omega)

/-- Claim C9 witness: the 3-character input "abc" is below the 15000-character cap
and is returned unchanged with the flag unset. -/
theorem claim_c9_witness :
    budgetStep "abc".toList = ("abc".toList, false) ∧
      smart_truncate_content "abc".toList MAX_FILE_CHARS = "abc".toList :=
  claim_c9 ("abc".toList) (by decide)

/-! ### Claim C3 -/

/-- Claim C3 counterexample: for the 10-character input "aaaaaaaaaa" and cap 8, the
input is strictly longer than the cap but the result — clipped back to 8
characters by the final re-clip — does not contain the elision marker, refuting
the claim for small caps. -/
theorem claim_c3_counterexample :
    8 < (List.replicate 10 'a').length ∧
      ¬ truncMarkerText ((List.replicate 10 'a').length - 8) <:+:
          smart_truncate_content (List.replicate 10 'a') 8 :=
  ⟨by decide, by decide⟩

/-- Claim C3 (amended): for every text input strictly longer than cap `C`, when `C`
is large enough for the head segment plus the whole elision marker to fit within
`C` (as at the program's call sites), `smart_truncate_content` returns text of
length at most `C` containing the marker that states how many characters were
removed from the middle, and the retained head and tail with the marker removed
form a subsequence of the original text in original order. -/
theorem claim_c3_amended (content : Text) (c : Nat)
    (h1 : c < content.length)
    (h2 : c / 2 + (truncMarkerText (content.length - c)).length ≤ c) :
    (smart_truncate_content content c).length ≤ c ∧
      truncMarkerText (content.length - c) <:+: smart_truncate_content content c ∧
      ∃ pre post,
        smart_truncate_content content c
            = pre ++ truncMarkerText (content.length - c) ++ post ∧
          List.Sublist (pre ++ post) content := by
  have hm43 : 43 ≤ (truncMarkerText (content.length - c)).length :=
    truncMarkerText_length_ge _
  have hke0 : c / 4 ≠ 0 := by omega
  have htail : pyTail content (c / 4) = content.drop (content.length - c / 4) := by
    unfold pyTail
    rw [if_neg hke0]
  have hksA : (content.take (c / 2)).length = c / 2 := by
    simp only [List.length_take]
    omega
  have hkeB : (content.drop (content.length - c / 4)).length = c / 4 := by
    simp only [List.length_drop]
    omega
  have hlen2 : (content.take (c / 2) ++ truncMarkerText (content.length - c)).length
      = c / 2 + (truncMarkerText (content.length - c)).length := by
    simp [List.length_append, hksA]
  have hstep : smart_truncate_content content c
      = content.take (c / 2) ++ truncMarkerText (content.length - c)
        ++ (content.drop (content.length - c / 4)).take
          (c - (c / 2 + (truncMarkerText (content.length - c)).length)) := by
    unfold smart_truncate_content
    rw [if_neg (by omega), if_pos (by omega), htail]
    rw [List.take_append_eq_append_take,
      List.take_of_length_le (by rw [hlen2]; omega), hlen2]
  refine ⟨?_, ?_, ?_⟩
  · rw [hstep]
    simp only [List.length_append, List.length_take]
    omega
  · exact ⟨content.take (c / 2),
      (content.drop (content.length - c / 4)).take
        (c - (c / 2 + (truncMarkerText (content.length - c)).length)),
      hstep.symm⟩
  · refine ⟨content.take (c / 2),
      (content.drop (content.length - c / 4)).take
        (c - (c / 2 + (truncMarkerText (content.length - c)).length)),
      hstep, ?_⟩
    have hdd : content.drop (content.length - c / 4)
        = (content.drop (c / 2)).drop (content.length - c / 4 - c / 2) := by
      rw [List.drop_drop]
      congr 1
      omega
    have h5 : List.Sublist
        ((content.drop (content.length - c / 4)).take
          (c - (c / 2 + (truncMarkerText (content.length - c)).length)))
        (content.drop (c / 2)) := by
      rw [hdd]
      exact (List.take_sublist _ _).trans (List.drop_sublist _ _)
    have h6 := h5.append_left (content.take (c / 2))
    rwa [List.take_append_drop] at h6

/-- Claim C3 witness: 200 characters truncated to cap 100 — the head (50 chars)
plus the 46-character marker fit within the cap. -/
theorem claim_c3_amended_witness :
    (smart_truncate_content (List.replicate 200 'a') 100).length ≤ 100 ∧
      truncMarkerText ((List.replicate 200 'a').length - 100) <:+:
        smart_truncate_content (List.replicate 200 'a') 100 ∧
      ∃ pre post,
        smart_truncate_content (List.replicate 200 'a') 100
            = pre ++ truncMarkerText ((List.replicate 200 'a').length - 100) ++ post ∧
          List.Sublist (pre ++ post) (List.replicate 200 'a') :=
  claim_c3_amended (List.replicate 200 'a') 100 (by decide) (by decide)

/-! ### Claim C6 -/

/-- Claim C6: decoding never raises past the decoder boundary — a reader exception
for a dispatched extension is converted into a diagnostic beginning
`"[Error reading"`, an unknown extension yields the unsupported-type diagnostic
without calling a reader, and `read_docx_file` converts its internal failure into
a diagnostic beginning `"[Error reading"`; in every case exactly one text value is
produced (the functions are total). -/
theorem claim_c6 (fname ext e : Text) :
    (isKnownExt ext = true →
      "[Error reading".toList <+: dispatchRead fname ext (.raised e)) ∧
    (isKnownExt ext = false → ∀ r, dispatchRead fname ext r = unsupportedText ext) ∧
    "[Error reading".toList <+: read_docx_file true (.error e) := by
  refine ⟨fun h => ?_, fun h r => ?_, ?_⟩
  · unfold dispatchRead
    rw [if_pos h]
    refine ⟨" ".toList ++ fname ++ ": ".toList ++ e ++ "]".toList, ?_⟩
    have hsp : "[Error reading ".toList = "[Error reading".toList ++ " ".toList := by
      decide
    rw [hsp]
    simp [List.append_assoc]
  · unfold dispatchRead
    rw [if_neg (by simp [h])]
  · unfold read_docx_file
    rw [if_neg (by simp)]
    refine ⟨" DOCX: ".toList ++ e ++ "]".toList, ?_⟩
    have hsp : "[Error reading DOCX: ".toList
        = "[Error reading".toList ++ " DOCX: ".toList := by decide
    rw [hsp]
    simp [List.append_assoc]

/-- Claim C6 witness: a raised read of `a.txt` yields an `"[Error reading"`
diagnostic, an unknown `.zzz` extension yields the unsupported diagnostic, and a
DOCX failure yields an `"[Error reading"` diagnostic. -/
theorem claim_c6_witness :
    "[Error reading".toList <+:
        dispatchRead "a.txt".toList ".txt".toList (.raised "boom".toList) ∧
      dispatchRead "a.zzz".toList ".zzz".toList (.ok "hi".toList)
          = unsupportedText ".zzz".toList ∧
      "[Error reading".toList <+: read_docx_file true (.error "boom".toList) :=
  ⟨(claim_c6 "a.txt".toList ".txt".toList "boom".toList).1 (by decide),
   (claim_c6 "a.zzz".toList ".zzz".toList "boom".toList).2.1 (by decide) _,
   (claim_c6 "a.txt".toList ".txt".toList "boom".toList).2.2⟩

/-! ### Claims C7 and C8 -/

theorem retryGo_rate_all (oracle : Nat → AttemptResult) :
    ∀ (fuel attempt : Nat) (waits : List Nat),
      (∀ a, a < fuel → ∃ e, oracle (attempt + a) = .raised e ∧
        classifyError e = .rateLimit) →
      retryGo oracle fuel attempt waits =
        { text := llmFailText, attempts := MAX_RETRIES,
          waits := waits ++ (List.range fuel).map fun i => rateWait (attempt + i) } := by
  intro fuel
  induction fuel with
  | zero => intro attempt waits _; simp [retryGo]
  | succ n ih =>
    intro attempt waits h
    obtain ⟨e, he, hc⟩ := h 0 (by omega)
    rw [Nat.add_zero] at he
    have hrec := ih (attempt + 1) (waits ++ [rateWait attempt]) (by
      intro a ha
      obtain ⟨e2, he2, hc2⟩ := h (a + 1) (by omega)
      refine ⟨e2, ?_, hc2⟩
      rw [← he2]
      congr 1
      omega)
    simp only [retryGo, he, hc]
    rw [hrec]
    congr 1
    rw [List.range_succ_eq_map, List.map_cons, List.map_map]
    simp only [Nat.add_zero, List.append_assoc, List.singleton_append]
    congr 1
    congr 1
    apply List.map_congr_left
    intro i _
    simp only [Function.comp_apply]
    congr 1
    omega

/-- Claim C7: when every attempt fails with a rate-limit error, the generation
client makes exactly `MAX_RETRIES` attempts, sleeping the capped exponential
backoff `min(RETRY_DELAY * 2 ** attempt, MAX_RETRY_DELAY)` between attempts —
concretely the strictly increasing waits 1, 2, 4, 8, 16 seconds, each at most the
maximum delay — and then returns the descriptive error string instead of
raising. -/
theorem claim_c7 (oracle : Nat → AttemptResult)
    (h : ∀ a, a < MAX_RETRIES →
      ∃ e, oracle a = .raised e ∧ classifyError e = .rateLimit) :
    make_llm_request_with_retry oracle =
        { text := llmFailText, attempts := MAX_RETRIES, waits := [1, 2, 4, 8, 16] } ∧
      List.Pairwise (· < ·) ([1, 2, 4, 8, 16] : List Nat) ∧
      ∀ w ∈ ([1, 2, 4, 8, 16] : List Nat), w ≤ MAX_RETRY_DELAY := by
  refine ⟨?_, by decide, by decide⟩
  unfold make_llm_request_with_retry
  rw [retryGo_rate_all oracle MAX_RETRIES 0 [] (by intro a ha; simpa using h a ha)]
  decide

/-- Claim C7 witness: an oracle that returns a rate-limit error on every attempt. -/
theorem claim_c7_witness :
    make_llm_request_with_retry (fun _ => .raised ("rate limit".toList)) =
      { text := llmFailText, attempts := MAX_RETRIES, waits := [1, 2, 4, 8, 16] } :=
  (claim_c7 (fun _ => .raised ("rate limit".toList))
    (fun _ _ => ⟨"rate limit".toList, rfl, by decide⟩)).1

theorem retryGo_auth (oracle : Nat → AttemptResult) (fuel attempt : Nat)
    (waits : List Nat) (e : Text) (h0 : oracle attempt = .raised e)
    (hc : classifyError e = .auth) :
    retryGo oracle (fuel + 1) attempt waits =
      { text := "Authentication error: ".toList ++ e, attempts := attempt + 1,
        waits := waits } := by
  simp only [retryGo, h0, hc]

/-- Claim C8: when the first attempt fails with an authentication error, the
generation client makes exactly one attempt and returns immediately with the
descriptive error result, performing no retry and no backoff wait. -/
theorem claim_c8 (oracle : Nat → AttemptResult) (e : Text)
    (h0 : oracle 0 = .raised e) (hc : classifyError e = .auth) :
    make_llm_request_with_retry oracle =
      { text := "Authentication error: ".toList ++ e, attempts := 1, waits := [] } := by
  show retryGo oracle MAX_RETRIES 0 [] = _
  rw [show MAX_RETRIES = 4 + 1 from rfl, retryGo_auth oracle 4 0 [] e h0 hc]

/-- Claim C8 witness: an oracle whose first attempt raises `401 unauthorized`. -/
theorem claim_c8_witness :
    make_llm_request_with_retry
        (fun a => if a = 0 then .raised ("401 unauthorized".toList)
          else .success none) =
      { text := "Authentication error: ".toList ++ "401 unauthorized".toList,
        attempts := 1, waits := [] } :=
  claim_c8 _ ("401 unauthorized".toList) rfl (by decide)

/-! ### Claim C5 -/

theorem processControlsGo_spec (outcome : Nat → Except Text (Text × Text)) :
    ∀ (rows : List (Text × Text)) (start : Nat),
      (processControlsGo outcome start rows).length = rows.length ∧
      ∀ i, i < rows.length →
        (processControlsGo outcome start rows)[i]? =
          some (match outcome (start + i) with
            | .ok p => p
            | .error e => (errAnalysisText e, errAnalysisText e)) := by
  intro rows
  induction rows with
  | nil =>
    intro start
    exact ⟨rfl, fun i hi => absurd hi (by simp)⟩
  | cons r rest ih =>
    intro start
    refine ⟨by simp [processControlsGo, (ih (start + 1)).1], ?_⟩
    intro i hi
    cases i with
    | zero => simp [processControlsGo]
    | succ j =>
      have hj := (ih (start + 1)).2 j (by simpa using hi)
      rw [show start + (j + 1) = start + 1 + j by omega]
      simpa [processControlsGo] using hj

/-- Claim C5 counterexample: in the module-level loop, which wraps its per-row
body in no `try`/`except`, a control whose evidence folder resolves by fuzzy
match raises `UnboundLocalError` out of `read_evidence_folder`; the exception
propagates past the row (no summary/sufficiency pair is appended) and aborts
the run, instead of degrading to an error-text result. -/
theorem claim_c5_counterexample :
    moduleLoopRow c5FuzzyInput ("s".toList) ("v".toList)
        = .error unboundFolderMissingText ∧
      read_evidence_folder c5FuzzyInput = .error unboundFolderMissingText :=
  ⟨rfl, rfl⟩

/-- Claim C5 (amended): `process_controls` produces exactly one result row for
every input row, in input order, even when the processing of individual controls
fails — a row whose `try` block raised yields the error-text pair in place, and
an untouched row yields its generated pair in place; no row is dropped.  The
module-level loop (lines 1003-1034) gives no such guarantee: it has no
per-control exception handling, so a collection exception there aborts the run
(see the counterexample). -/
theorem claim_c5 (outcome : Nat → Except Text (Text × Text))
    (rows : List (Text × Text)) :
    (process_controls outcome rows).length = rows.length ∧
      (∀ i, i < rows.length → ∀ e, outcome i = .error e →
        (process_controls outcome rows)[i]? =
          some (errAnalysisText e, errAnalysisText e)) ∧
      (∀ i, i < rows.length → ∀ p, outcome i = .ok p →
        (process_controls outcome rows)[i]? = some p) := by
  have h := processControlsGo_spec outcome rows 0
  refine ⟨h.1, ?_, ?_⟩
  · intro i hi e he
    have h2 := h.2 i hi
    rw [Nat.zero_add, he] at h2
    exact h2
  · intro i hi p hp
    have h2 := h.2 i hi
    rw [Nat.zero_add, hp] at h2
    exact h2

/-- Claim C5 witness: two input rows, the first generating normally and the second
raising; the output has exactly two rows, in order, with the error text in the
second. -/
theorem claim_c5_witness :
    (process_controls
        (fun i => if i = 0 then .ok ("s".toList, "v".toList) else .error "boom".toList)
        [("C1".toList, "d1".toList), ("C2".toList, "d2".toList)]).length = 2 ∧
      (process_controls
        (fun i => if i = 0 then .ok ("s".toList, "v".toList) else .error "boom".toList)
        [("C1".toList, "d1".toList), ("C2".toList, "d2".toList)])[0]? =
          some ("s".toList, "v".toList) ∧
      (process_controls
        (fun i => if i = 0 then .ok ("s".toList, "v".toList) else .error "boom".toList)
        [("C1".toList, "d1".toList), ("C2".toList, "d2".toList)])[1]? =
          some (errAnalysisText "boom".toList, errAnalysisText "boom".toList) :=
  ⟨(claim_c5 _ _).1,
   (claim_c5 _ _).2.2 0 (by decide) ("s".toList, "v".toList) rfl,
   (claim_c5 _ _).2.1 1 (by decide) "boom".toList rfl⟩

/-! ### Claim C10 -/

/-- Claim C10: when the remaining global budget at a local file's turn is positive
but at most the 100-character usefulness threshold and the file's budgeted content
does not fit, the loop drops the file's content but has already appended the
file's header line to the corpus and already counted the file in the
processed-source count, so the resulting corpus names a source whose content is
absent, and processing stops. -/
theorem claim_c10 (f : EvFile) (rest : List EvFile) (s : LoopSt)
    (h1 : s.totalChars < MAX_TOTAL_CHARS)
    (h2 : MAX_TOTAL_CHARS - s.totalChars ≤ 100)
    (h3 : MAX_TOTAL_CHARS - s.totalChars < (budgetStep f.content).1.length) :
    processFiles (f :: rest) s =
      { contents := s.contents ++ [fileHeader (s.fileCount + 1) f],
        fileCount := s.fileCount + 1, totalChars := s.totalChars,
        truncated := true } := by
  simp only [processFiles]
  rw [if_neg (by omega), if_pos h3, if_neg (by omega)]

/-- Claim C10 witness: with 159950 of the 160000-character budget already used, a
200-character file gets its header appended and counted but its content dropped. -/
theorem claim_c10_witness :
    processFiles [c10File] c10State =
      { contents := [fileHeader 4 c10File], fileCount := 4, totalChars := 159950,
        truncated := true } := by
  have h := claim_c10 c10File [] c10State (by decide) (by decide) (by decide)
  simpa [c10State] using h

/-! ### Claim C1 -/

/-- Claim C1 (code bug): for a control with zero resolvable evidence sources, the
collector does return the no-evidence sentinel, but the sentinel does not contain
the substring `"No evidence folder found"` that the orchestrator's short-circuit
check tests for, so the orchestrator takes the generation branch and makes its two
generation-service calls instead of zero. -/
theorem claim_c1_code_bug :
    read_evidence_folder c1Input = .ok (sentinelText c1Input) ∧
      hasSubstr (sentinelText c1Input) noEvidenceCheckText = false ∧
      ∀ s v : Text, moduleLoopBody (sentinelText c1Input) s v = (s, v, 2) := by
  refine ⟨rfl, by decide, fun s v => ?_⟩
  unfold moduleLoopBody
  rw [if_neg (by decide)]

/-! ### Claim C4 -/

theorem collectState_sap_only (inp : FolderInput) (hm : inp.resolution = .noMatch)
    (hs : inp.sapEnabled = true) (hj : inp.jiraEnabled = false)
    (hne : inp.sapEvidence.isEmpty = false) :
    collectState inp =
      { contents := [inp.sapEvidence], fileCount := 1,
        totalChars := inp.sapEvidence.length, truncated := false } := by
  unfold collectState remoteState
  rw [hm, hs, hj, hne]
  simp

/-- Claim C4 counterexample: an enabled SAP GRC fetch returning 15001 characters is
appended to the corpus untruncated — its contribution exceeds the per-file cap —
and the whole corpus for that control is exactly that 15001-character text. -/
theorem claim_c4_counterexample :
    List.replicate 15001 'g' ∈ (collectState c4Input).contents ∧
      MAX_FILE_CHARS < (List.replicate 15001 'g').length ∧
      read_evidence_folder c4Input = .ok (List.replicate 15001 'g') := by
  have hrepl : (15001 : Nat) = 15000 + 1 := rfl
  have hne : (List.replicate 15001 'g').isEmpty = false := by
    rw [hrepl, List.replicate_succ]
    rfl
  have hev : c4Input.sapEvidence = List.replicate 15001 'g' := rfl
  have hc := collectState_sap_only c4Input rfl rfl rfl (by rw [hev, hne])
  rw [hev] at hc
  have hlen : (List.replicate 15001 'g').length = 15001 := List.length_replicate 15001 'g'
  refine ⟨by rw [hc]; exact List.mem_singleton.mpr rfl, ?_, ?_⟩
  · rw [hlen]
    norm_num [MAX_FILE_CHARS]
  · show Except.ok (assembleResult (collectState c4Input) c4Input)
        = Except.ok (List.replicate 15001 'g')
    unfold assembleResult
    rw [hc]
    have hjoin : joinNl [List.replicate 15001 'g'] = List.replicate 15001 'g' := rfl
    rw [if_neg (by norm_num), hjoin, hlen,
      if_neg (by norm_num [MAX_TOTAL_CHARS]), if_neg (by norm_num)]

/-- Claim C4 (amended): every element the local-file loop appends to the corpus is
either a header line, the stopped marker, a separator, or file content of length
at most the per-file cap `MAX_FILE_CHARS`; remote-collaborator contributions are
exempt from the per-file cap (see the counterexample). -/
theorem claim_c4_amended (files : List EvFile) :
    ∀ (s : LoopSt) (t : Text), t ∈ (processFiles files s).contents →
      t ∈ s.contents ∨ (∃ n f, t = fileHeader n f) ∨ t = stoppedText ∨ t = [] ∨
        t.length ≤ MAX_FILE_CHARS := by
  induction files with
  | nil => intro s t ht; exact .inl ht
  | cons f rest ih =>
    intro s t ht
    simp only [processFiles] at ht
    by_cases h1 : MAX_TOTAL_CHARS ≤ s.totalChars
    · rw [if_pos h1] at ht
      exact .inl ht
    rw [if_neg h1] at ht
    by_cases h2 : MAX_TOTAL_CHARS - s.totalChars < (budgetStep f.content).1.length
    · rw [if_pos h2] at ht
      by_cases h3 : 100 < MAX_TOTAL_CHARS - s.totalChars
      · rw [if_pos h3] at ht
        simp only [List.mem_append, List.mem_cons, List.not_mem_nil, or_false] at ht
        rcases ht with ht | ht | ht | ht
        · exact .inl ht
        · exact .inr (.inl ⟨s.fileCount + 1, f, ht⟩)
        · refine .inr (.inr (.inr (.inr ?_)))
          subst ht
          have hfc : (budgetStep f.content).1.length ≤ MAX_FILE_CHARS :=
            budgetStep_length_le_cap f.content
          have hlt : MAX_TOTAL_CHARS - s.totalChars - 50
              < (budgetStep f.content).1.length := by omega
          calc (smart_truncate_content (budgetStep f.content).1
                  (MAX_TOTAL_CHARS - s.totalChars - 50)).length
              ≤ MAX_TOTAL_CHARS - s.totalChars - 50 :=
                smart_truncate_length_le_cap _ _ (by omega) hlt
            _ ≤ MAX_FILE_CHARS := by omega
        · exact .inr (.inr (.inl ht))
      · rw [if_neg h3] at ht
        simp only [List.mem_append, List.mem_cons, List.not_mem_nil, or_false] at ht
        rcases ht with ht | ht
        · exact .inl ht
        · exact .inr (.inl ⟨s.fileCount + 1, f, ht⟩)
    · rw [if_neg h2] at ht
      rcases ih _ t ht with hin | hrest
      · simp only [fitState, List.mem_append, List.mem_cons, List.not_mem_nil,
          or_false] at hin
        rcases hin with hin | hin | hin | hin
        · exact .inl hin
        · exact .inr (.inl ⟨s.fileCount + 1, f, hin⟩)
        · exact .inr (.inr (.inr (.inr (hin ▸ budgetStep_length_le_cap f.content))))
        · exact .inr (.inr (.inr (.inl hin)))
      · exact .inr hrest

/-- Claim C4 witness: a 5-character local file's content appears in the corpus and
satisfies the per-file bound. -/
theorem claim_c4_amended_witness :
    "hello".toList ∈ zeroSt.contents ∨
      (∃ n f, "hello".toList = fileHeader n f) ∨ "hello".toList = stoppedText ∨
      "hello".toList = [] ∨ ("hello".toList).length ≤ MAX_FILE_CHARS :=
  claim_c4_amended [{ name := "a.txt".toList, size := 5, content := "hello".toList }]
    zeroSt "hello".toList (by decide)

/-! ### Claim C2 -/

theorem fitState_contents (s : LoopSt) (f : EvFile) :
    (fitState s f).contents = s.contents
      ++ [fileHeader (s.fileCount + 1) f, (budgetStep f.content).1, []] := rfl

theorem fitState_fileCount (s : LoopSt) (f : EvFile) :
    (fitState s f).fileCount = s.fileCount + 1 := rfl

theorem fitState_totalChars (s : LoopSt) (f : EvFile) :
    (fitState s f).totalChars = s.totalChars + (budgetStep f.content).1.length := rfl

theorem fitState_truncated (s : LoopSt) (f : EvFile) :
    (fitState s f).truncated = (s.truncated || (budgetStep f.content).2) := rfl

theorem processFiles_nil (s : LoopSt) : processFiles [] s = s := rfl

theorem processFiles_fit (f : EvFile) (rest : List EvFile) (s : LoopSt)
    (h1 : s.totalChars < MAX_TOTAL_CHARS)
    (h2 : (budgetStep f.content).1.length ≤ MAX_TOTAL_CHARS - s.totalChars) :
    processFiles (f :: rest) s = processFiles rest (fitState s f) := by
  simp only [processFiles]
  rw [if_neg (by omega), if_neg (by omega)]

theorem processFiles_totalChars_le (files : List EvFile) :
    ∀ s : LoopSt, s.totalChars ≤ MAX_TOTAL_CHARS →
      (processFiles files s).totalChars ≤ MAX_TOTAL_CHARS := by
  induction files with
  | nil => intro s hs; exact hs
  | cons f rest ih =>
    intro s hs
    simp only [processFiles]
    by_cases h1 : MAX_TOTAL_CHARS ≤ s.totalChars
    · rw [if_pos h1]; exact hs
    rw [if_neg h1]
    by_cases h2 : MAX_TOTAL_CHARS - s.totalChars < (budgetStep f.content).1.length
    · rw [if_pos h2]
      by_cases h3 : 100 < MAX_TOTAL_CHARS - s.totalChars
      · rw [if_pos h3]; exact hs
      · rw [if_neg h3]; exact hs
    · rw [if_neg h2]
      exact ih (fitState s f) (by rw [fitState_totalChars]; omega)

theorem processFiles_truncated_mono (files : List EvFile) :
    ∀ s : LoopSt, s.truncated = true → (processFiles files s).truncated = true := by
  induction files with
  | nil => intro s hs; exact hs
  | cons f rest ih =>
    intro s hs
    simp only [processFiles]
    by_cases h1 : MAX_TOTAL_CHARS ≤ s.totalChars
    · rw [if_pos h1]; exact hs
    rw [if_neg h1]
    by_cases h2 : MAX_TOTAL_CHARS - s.totalChars < (budgetStep f.content).1.length
    · rw [if_pos h2]
      by_cases h3 : 100 < MAX_TOTAL_CHARS - s.totalChars
      · rw [if_pos h3]
      · rw [if_neg h3]
    · rw [if_neg h2]
      exact ih (fitState s f) (by rw [fitState_truncated, hs]; rfl)

theorem processFiles_fileCount_mono (files : List EvFile) :
    ∀ s : LoopSt, s.fileCount ≤ (processFiles files s).fileCount := by
  induction files with
  | nil => intro s; exact le_rfl
  | cons f rest ih =>
    intro s
    simp only [processFiles]
    by_cases h1 : MAX_TOTAL_CHARS ≤ s.totalChars
    · rw [if_pos h1]
    rw [if_neg h1]
    by_cases h2 : MAX_TOTAL_CHARS - s.totalChars < (budgetStep f.content).1.length
    · rw [if_pos h2]
      by_cases h3 : 100 < MAX_TOTAL_CHARS - s.totalChars
      · rw [if_pos h3]; exact Nat.le_succ _
      · rw [if_neg h3]; exact Nat.le_succ _
    · rw [if_neg h2]
      have h4 := ih (fitState s f)
      rw [fitState_fileCount] at h4
      omega

theorem processFiles_fileCount_pos (f : EvFile) (rest : List EvFile) (s : LoopSt)
    (h : s.totalChars < MAX_TOTAL_CHARS) :
    s.fileCount + 1 ≤ (processFiles (f :: rest) s).fileCount := by
  simp only [processFiles]
  rw [if_neg (by omega)]
  by_cases h2 : MAX_TOTAL_CHARS - s.totalChars < (budgetStep f.content).1.length
  · rw [if_pos h2]
    by_cases h3 : 100 < MAX_TOTAL_CHARS - s.totalChars
    · rw [if_pos h3]
    · rw [if_neg h3]
  · rw [if_neg h2]
    have h4 := processFiles_fileCount_mono rest (fitState s f)
    rw [fitState_fileCount] at h4
    exact h4

theorem processFiles_no_trunc (files : List EvFile) :
    ∀ s : LoopSt, s.totalChars ≤ MAX_TOTAL_CHARS →
      (processFiles files s).truncated = false →
      (processFiles files s).totalChars = MAX_TOTAL_CHARS ∨
        (processFiles files s).totalChars = s.totalChars + budgetSum files := by
  induction files with
  | nil => intro s _ _; right; simp [processFiles, budgetSum]
  | cons f rest ih =>
    intro s hs htr
    simp only [processFiles] at htr ⊢
    by_cases h1 : MAX_TOTAL_CHARS ≤ s.totalChars
    · rw [if_pos h1] at htr ⊢
      left
      omega
    rw [if_neg h1] at htr ⊢
    by_cases h2 : MAX_TOTAL_CHARS - s.totalChars < (budgetStep f.content).1.length
    · rw [if_pos h2] at htr ⊢
      by_cases h3 : 100 < MAX_TOTAL_CHARS - s.totalChars
      · rw [if_pos h3] at htr; exact absurd htr (by simp)
      · rw [if_neg h3] at htr; exact absurd htr (by simp)
    · rw [if_neg h2] at htr ⊢
      rcases ih (fitState s f) (by rw [fitState_totalChars]; omega) htr with hl | hr
      · exact .inl hl
      · right
        rw [hr, fitState_totalChars]
        simp only [budgetSum, List.map_cons, List.sum_cons]
        omega

theorem processFiles_contentsLen (files : List EvFile) :
    ∀ s : LoopSt,
      (s.totalChars = 0 ∨ s.totalChars < contentsLen s.contents) →
      ((processFiles files s).totalChars = 0 ∨
        (processFiles files s).totalChars
          < contentsLen (processFiles files s).contents) := by
  induction files with
  | nil => intro s hs; exact hs
  | cons f rest ih =>
    intro s hs
    simp only [processFiles]
    by_cases h1 : MAX_TOTAL_CHARS ≤ s.totalChars
    · rw [if_pos h1]; exact hs
    rw [if_neg h1]
    have hhd := fileHeader_length_pos (s.fileCount + 1) f
    by_cases h2 : MAX_TOTAL_CHARS - s.totalChars < (budgetStep f.content).1.length
    · rw [if_pos h2]
      by_cases h3 : 100 < MAX_TOTAL_CHARS - s.totalChars
      · rw [if_pos h3]
        simp only [contentsLen, List.map_append, List.sum_append, List.map_cons,
          List.sum_cons, List.sum_nil] at hs ⊢
        omega
      · rw [if_neg h3]
        simp only [contentsLen, List.map_append, List.sum_append, List.map_cons,
          List.sum_cons, List.sum_nil] at hs ⊢
        omega
    · rw [if_neg h2]
      apply ih (fitState s f)
      rw [fitState_totalChars, fitState_contents]
      simp only [contentsLen, List.map_append, List.sum_append, List.map_cons,
        List.sum_cons, List.sum_nil, List.length_nil] at hs ⊢
      omega

theorem processFiles_stop (files : List EvFile) :
    ∀ s : LoopSt, s.totalChars ≤ MAX_TOTAL_CHARS →
      MAX_TOTAL_CHARS < s.totalChars + budgetSum files →
      ∃ k, k < files.length ∧
        processFiles files s = processFiles (files.take (k + 1)) s := by
  induction files with
  | nil =>
    intro s hs hsum
    exfalso
    simp [budgetSum] at hsum
    omega
  | cons f rest ih =>
    intro s hs hsum
    by_cases h1 : MAX_TOTAL_CHARS ≤ s.totalChars
    · refine ⟨0, by simp, ?_⟩
      simp only [List.take_succ_cons, List.take_zero, processFiles]
      rw [if_pos h1, if_pos h1]
    by_cases h2 : MAX_TOTAL_CHARS - s.totalChars < (budgetStep f.content).1.length
    · refine ⟨0, by simp, ?_⟩
      simp only [List.take_succ_cons, List.take_zero, processFiles]
      rw [if_neg h1, if_neg h1, if_pos h2, if_pos h2]
    · have hsum2 : MAX_TOTAL_CHARS
          < (fitState s f).totalChars + budgetSum rest := by
        rw [fitState_totalChars]
        simp only [budgetSum, List.map_cons, List.sum_cons] at hsum
        simp only [budgetSum]
        omega
      obtain ⟨k, hk, heq⟩ :=
        ih (fitState s f) (by rw [fitState_totalChars]; omega) hsum2
      refine ⟨k + 1, by simp only [List.length_cons]; omega, ?_⟩
      simp only [List.take_succ_cons, processFiles]
      rw [if_neg h1, if_neg h1, if_neg h2, if_neg h2]
      exact heq

theorem remoteState_disabled (inp : FolderInput) (hs : inp.sapEnabled = false)
    (hj : inp.jiraEnabled = false) : remoteState inp = zeroSt := by
  unfold remoteState
  rw [hs, hj]
  rfl

theorem budgetSum_sortBySize (files : List EvFile) :
    budgetSum (sortBySize files) = budgetSum files := by
  unfold budgetSum sortBySize
  exact ((List.perm_insertionSort _ files).map _).sum_eq

theorem sortBySize_sorted (files : List EvFile) :
    List.Sorted (fun a b => a.size ≤ b.size) (sortBySize files) :=
  List.sorted_insertionSort _ files

theorem warnHead_isPrefix (fc n : Nat) (t : Text) :
    warnHead <+: warningText fc n ++ "\n\n".toList ++ t := by
  refine ⟨(Nat.repr fc).toList ++ " sources, total ".toList ++ (Nat.repr n).toList
    ++ " chars]".toList ++ "\n\n".toList ++ t, ?_⟩
  simp [warningText, List.append_assoc]

theorem read_evidence_folder_exact (inp : FolderInput)
    (h : inp.resolution = .exactMatch) :
    read_evidence_folder inp = .ok (assembleResult (collectState inp) inp) := by
  unfold read_evidence_folder
  rw [h]

/-- Claim C2 counterexample: two local files of 80001 decoded characters each —
combined decoded size 160002, which exceeds the 160000-character global cap — are
both shrunk to 11298 characters by per-file budgeting, so the loop processes both
files completely: no file is absent from the corpus, the running total (22596)
never reaches the global cap, and processing never stops at any file. -/
theorem claim_c2_counterexample :
    MAX_TOTAL_CHARS < ([c2BigFile, c2BigFile].map fun f => f.content.length).sum ∧
      (processFiles (sortBySize [c2BigFile, c2BigFile]) zeroSt).fileCount = 2 ∧
      (processFiles (sortBySize [c2BigFile, c2BigFile]) zeroSt).totalChars
          < MAX_TOTAL_CHARS ∧
      (processFiles (sortBySize [c2BigFile, c2BigFile]) zeroSt).contents.length = 6 := by
  have hm : (truncMarkerText 65001).length = 48 := by decide
  have hs1 : (smart_truncate_content (List.replicate 80001 'x') 15000).length
      = 11298 := by
    simp only [smart_truncate_content, pyTail, List.length_replicate]
    norm_num [hm]
  have hs1b : (smart_truncate_content (List.replicate 80001 'x') MAX_FILE_CHARS).length
      = 11298 := hs1
  have hbeq : (budgetStep c2BigFile.content).1
      = smart_truncate_content (List.replicate 80001 'x') MAX_FILE_CHARS := by
    show (budgetStep (List.replicate 80001 'x')).1 = _
    unfold budgetStep
    rw [if_pos (by rw [List.length_replicate]; norm_num [MAX_FILE_CHARS])]
  have hb2 : (budgetStep c2BigFile.content).1.length = 11298 := by
    rw [hbeq]
    exact hs1b
  have hsort : sortBySize [c2BigFile, c2BigFile] = [c2BigFile, c2BigFile] := by
    simp [sortBySize, List.insertionSort, List.orderedInsert]
  have ht1 : (fitState zeroSt c2BigFile).totalChars = 11298 := by
    rw [fitState_totalChars, hb2]
    norm_num [zeroSt]
  have hrun : processFiles [c2BigFile, c2BigFile] zeroSt
      = fitState (fitState zeroSt c2BigFile) c2BigFile := by
    rw [processFiles_fit c2BigFile [c2BigFile] zeroSt
        (by norm_num [zeroSt, MAX_TOTAL_CHARS])
        (by rw [hb2]; norm_num [zeroSt, MAX_TOTAL_CHARS]),
      processFiles_fit c2BigFile [] (fitState zeroSt c2BigFile)
        (by rw [ht1]; norm_num [MAX_TOTAL_CHARS])
        (by rw [hb2, ht1]; norm_num [MAX_TOTAL_CHARS]),
      processFiles_nil]
  rw [hsort, hrun]
  refine ⟨?_, ?_, ?_, ?_⟩
  · have hclen : c2BigFile.content.length = 80001 := by
      show (List.replicate 80001 'x').length = 80001
      exact List.length_replicate 80001 'x'
    have hmap : ([c2BigFile, c2BigFile].map fun f => f.content.length)
        = [c2BigFile.content.length, c2BigFile.content.length] := rfl
    rw [hmap, List.sum_cons, List.sum_cons, List.sum_nil, hclen]
    norm_num [MAX_TOTAL_CHARS]
  · rw [fitState_fileCount, fitState_fileCount]
    norm_num [zeroSt]
  · rw [fitState_totalChars, hb2, fitState_totalChars, hb2]
    norm_num [zeroSt, MAX_TOTAL_CHARS]
  · rw [fitState_contents, fitState_contents]
    simp only [zeroSt, List.nil_append, List.length_append, List.length_cons,
      List.length_nil]

/-- Claim C2 (amended): for every control with both remote collaborators disabled
and an evidence folder resolved by exact name match whose files' combined
budgeted (per-file-capped) decoded size exceeds the global cap, the corpus is
built from the files in ascending byte-size order, processing stops at some file
— the final loop state depends only on the files up to and including the
stopping file, so every file ordered after it is absent from the corpus — and
the returned result carries the prepended truncation warning banner.  (With the
hypothesis on the raw decoded sizes, as the claim stated it, per-file budgeting
can shrink every file enough that no stopping occurs — see the counterexample;
and for a fuzzily resolved folder no corpus is produced at all, because
`read_evidence_folder` raises `UnboundLocalError` at line 746 — see the claim C5
counterexample.) -/
theorem claim_c2_amended (inp : FolderInput)
    (hs : inp.sapEnabled = false) (hj : inp.jiraEnabled = false)
    (hm : inp.resolution = .exactMatch)
    (h : MAX_TOTAL_CHARS < budgetSum inp.files) :
    List.Sorted (fun a b => a.size ≤ b.size) (sortBySize inp.files) ∧
      (∃ k, k < (sortBySize inp.files).length ∧
        processFiles (sortBySize inp.files) zeroSt
          = processFiles ((sortBySize inp.files).take (k + 1)) zeroSt) ∧
      ∃ corpus, read_evidence_folder inp = .ok corpus ∧ warnHead <+: corpus := by
  have hsum : MAX_TOTAL_CHARS < zeroSt.totalChars + budgetSum (sortBySize inp.files) := by
    rw [budgetSum_sortBySize]
    simpa [zeroSt] using h
  have hz : zeroSt.totalChars ≤ MAX_TOTAL_CHARS := by norm_num [zeroSt, MAX_TOTAL_CHARS]
  obtain ⟨k, hk, heq⟩ := processFiles_stop (sortBySize inp.files) zeroSt hz hsum
  refine ⟨sortBySize_sorted inp.files, ⟨k, hk, heq⟩, ?_⟩
  have hcs : collectState inp = processFiles (sortBySize inp.files) zeroSt := by
    unfold collectState
    rw [hm, if_pos rfl, remoteState_disabled inp hs hj]
  set st := processFiles (sortBySize inp.files) zeroSt with hst
  have hne : sortBySize inp.files ≠ [] := by
    intro hnil
    rw [hnil] at hk
    simp at hk
  have hfc : 1 ≤ st.fileCount := by
    rcases hlist : sortBySize inp.files with _ | ⟨f, rest⟩
    · exact absurd hlist hne
    · have := processFiles_fileCount_pos f rest zeroSt
        (by norm_num [zeroSt, MAX_TOTAL_CHARS])
      rw [hst, hlist]
      simpa [zeroSt] using this
  have htot : st.totalChars ≤ MAX_TOTAL_CHARS := processFiles_totalChars_le _ zeroSt hz
  -- either the loop set the truncated flag, or the final safety check fires
  have hbanner : st.truncated = true ∨ MAX_TOTAL_CHARS < (joinNl st.contents).length := by
    by_cases htr : st.truncated = true
    · exact .inl htr
    · right
      have htr2 : st.truncated = false := by
        cases hx : st.truncated
        · rfl
        · exact absurd hx htr
      rcases processFiles_no_trunc (sortBySize inp.files) zeroSt hz htr2 with hEq | hAll
      · -- total is exactly the cap; headers make the joined corpus strictly longer
        have hcl := processFiles_contentsLen (sortBySize inp.files) zeroSt (by simp [zeroSt])
        rw [← hst] at hcl hEq
        rcases hcl with h0 | hlt
        · rw [hEq] at h0
          norm_num [MAX_TOTAL_CHARS] at h0
        · have := joinNl_length_ge st.contents
          omega
      · exfalso
        rw [← hst] at hAll
        omega
  refine ⟨assembleResult (collectState inp) inp,
    read_evidence_folder_exact inp hm, ?_⟩
  rw [hcs]
  unfold assembleResult
  rw [if_neg (by omega)]
  rcases hbanner with htr | hlong
  · by_cases hlen : MAX_TOTAL_CHARS < (joinNl st.contents).length
    · rw [if_pos hlen]
      exact warnHead_isPrefix _ _ _
    · rw [if_neg hlen, if_pos htr]
      exact warnHead_isPrefix _ _ _
  · rw [if_pos hlong]
    exact warnHead_isPrefix _ _ _

/-- Claim C2 witness: eleven files of 15000 budgeted characters each (combined
165000, above the 160000 cap) with both collaborators disabled. -/
theorem claim_c2_amended_witness :
    List.Sorted (fun a b => a.size ≤ b.size) (sortBySize c2WitnessInput.files) ∧
      (∃ k, k < (sortBySize c2WitnessInput.files).length ∧
        processFiles (sortBySize c2WitnessInput.files) zeroSt
          = processFiles ((sortBySize c2WitnessInput.files).take (k + 1)) zeroSt) ∧
      ∃ corpus, read_evidence_folder c2WitnessInput = .ok corpus ∧
        warnHead <+: corpus := by
  have hb : (budgetStep (List.replicate 15000 'a')).1.length = 15000 := by
    unfold budgetStep
    rw [if_neg (by rw [List.length_replicate]; norm_num [MAX_FILE_CHARS])]
    exact List.length_replicate 15000 'a'
  refine claim_c2_amended c2WitnessInput rfl rfl rfl ?_
  show MAX_TOTAL_CHARS < budgetSum (List.replicate 11 c2CapFile)
  unfold budgetSum
  rw [List.map_replicate]
  show MAX_TOTAL_CHARS
    < (List.replicate 11 (budgetStep (List.replicate 15000 'a')).1.length).sum
  rw [hb, List.sum_replicate]
  norm_num [MAX_TOTAL_CHARS]
